import Mathlib

/-!
Verification of the `funih` dynamic-range compressor plugin (src/src/lib.rs,
src/src/params.rs) against its natural-language specification.

Numeric model: the Rust code computes in `f32`; we embed it in exact real
arithmetic (`ℝ`), idealising the floating-point literals `LOG10_2`,
`1e-5`, … as the exact real constants they approximate.  Division in `ℝ`
is Lean's total division (`x / 0 = 0`); wherever a division by zero in the
source would produce an IEEE `NaN` we point this out explicitly (see the
development around `calculate_gain_reduction` for `knee_width = 0`).

The dB conversion helpers are the `nih_plug::util` functions used by the
source (`use util::{db_to_gain_fast, gain_to_db_fast}`):

  pub const MINUS_INFINITY_GAIN: f32 = 1e-5; // 10^(-100 / 20)
  pub fn gain_to_db_fast(gain: f32) -> f32 {
      const CONVERSION_FACTOR: f32 = std::f32::consts::LOG10_2 * 20.0;
      gain.max(MINUS_INFINITY_GAIN).log2() * CONVERSION_FACTOR
  }
  pub fn db_to_gain_fast(dbs: f32) -> f32 {
      const CONVERSION_FACTOR: f32 = std::f32::consts::LOG10_2 * 20.0;
      2.0f32.powf(dbs / CONVERSION_FACTOR)
  }

In exact arithmetic these are `20·log₁₀ (max gain 10⁻⁵)` and `10^(dbs/20)`;
we define them through `log₂`/`exp₂` exactly as the source does and prove
the equivalence (`gain_to_db_fast_eq_spec`, `db_to_gain_fast_eq_spec`).
-/

/-- The `nih_plug::util::MINUS_INFINITY_GAIN` floor (`1e-5`, i.e. −100 dB)
applied to a linear gain before taking its logarithm. -/
noncomputable def minus_infinity_gain : ℝ := 1e-5

/-- Embedding of `nih_plug::util::gain_to_db_fast`: `log₂` of the floored
gain, scaled by `LOG10_2 * 20` (written here as `Real.logb 10 2 * 20`). -/
noncomputable def gain_to_db_fast (gain : ℝ) : ℝ :=
  Real.logb 2 (max gain minus_infinity_gain) * (Real.logb 10 2 * 20)

/-- Embedding of `nih_plug::util::db_to_gain_fast`: `exp₂` (real power of
base 2) of `dbs / (LOG10_2 * 20)`. -/
noncomputable def db_to_gain_fast (dbs : ℝ) : ℝ :=
  (2 : ℝ) ^ (dbs / (Real.logb 10 2 * 20))

/-- The specification's dB conversion, per spec §4.2 step 1: convert the
level to decibels with the level floored before the logarithm. -/
noncomputable def gain_to_db_spec (gain : ℝ) : ℝ :=
  20 * Real.logb 10 (max gain minus_infinity_gain)

/-- The specification's linear-multiplier conversion `10^(final_db/20)`. -/
noncomputable def db_to_gain_spec (dbs : ℝ) : ℝ :=
  (10 : ℝ) ^ (dbs / 20)

theorem log_two_ne_zero : Real.log 2 ≠ 0 :=
  ne_of_gt (Real.log_pos (by norm_num))

theorem log_ten_ne_zero : Real.log 10 ≠ 0 :=
  ne_of_gt (Real.log_pos (by norm_num))

/-- The source's `log₂`-based fast conversion agrees with the spec's
`20·log₁₀` conversion in exact real arithmetic. -/
theorem gain_to_db_fast_eq_spec (gain : ℝ) :
    gain_to_db_fast gain = gain_to_db_spec gain := by
  unfold gain_to_db_fast gain_to_db_spec Real.logb
  field_simp
  ring

/-- The source's `exp₂`-based fast conversion agrees with the spec's
`10^(dbs/20)` conversion in exact real arithmetic. -/
theorem db_to_gain_fast_eq_spec (dbs : ℝ) :
    db_to_gain_fast dbs = db_to_gain_spec dbs := by
  unfold db_to_gain_fast db_to_gain_spec
  rw [Real.rpow_def_of_pos (by norm_num : (0:ℝ) < 2),
      Real.rpow_def_of_pos (by norm_num : (0:ℝ) < 10)]
  congr 1
  unfold Real.logb
  field_simp
  ring

/-- Embedding of `calculate_gain_reduction` (src/src/lib.rs lines 30–53),
transcribed branch for branch:

  let input_db = gain_to_db_fast(gain);
  let reduced_db = {
      let difference = input_db - threshold;
      if 2.0 * (difference).abs() <= knee_width {
          let gain_reduction =
              (difference + (knee_width / 2.0)).powi(2) / (2.0 * knee_width);
          input_db + (1.0 / ratio - 1.0) * gain_reduction
      } else if 2.0 * (difference) > knee_width {
          threshold + (difference / ratio)
      } else {
          input_db
      }
  };
  let final_db = reduced_db - input_db;
  db_to_gain_fast(final_db)
-/
noncomputable def calculate_gain_reduction
    (gain threshold ratio knee_width : ℝ) : ℝ :=
  let input_db := gain_to_db_fast gain
  let reduced_db :=
    let difference := input_db - threshold
    if 2 * |difference| ≤ knee_width then
      let gain_reduction := (difference + knee_width / 2) ^ 2 / (2 * knee_width)
      input_db + (1 / ratio - 1) * gain_reduction
    else if 2 * difference > knee_width then
      threshold + difference / ratio
    else
      input_db
  let final_db := reduced_db - input_db
  db_to_gain_fast final_db

/-- The gain computer exactly as the claim C1 words it (three regions on
`difference = input_db - threshold_db`, quadratic knee formula written with
the claim's `a * b / c` precedence, multiplier `10^((reduced_db -
input_db)/20)` with the exact `log₁₀`/`10^·` conversions). -/
noncomputable def spec_gain_reduction
    (level threshold_db ratio knee_width : ℝ) : ℝ :=
  let input_db := gain_to_db_spec level
  let difference := input_db - threshold_db
  let reduced_db :=
    if 2 * |difference| ≤ knee_width then
      input_db + (1 / ratio - 1) * (difference + knee_width / 2) ^ 2 / (2 * knee_width)
    else if 2 * difference > knee_width then
      threshold_db + difference / ratio
    else
      input_db
  db_to_gain_spec (reduced_db - input_db)

/-- The dB delta applied by the gain computer, as a function of
`difference = input_db - threshold` alone (the threshold cancels out of
`reduced_db - input_db` in every branch). -/
noncomputable def final_db_delta (difference ratio knee_width : ℝ) : ℝ :=
  if 2 * |difference| ≤ knee_width then
    (1 / ratio - 1) * ((difference + knee_width / 2) ^ 2 / (2 * knee_width))
  else if 2 * difference > knee_width then
    difference / ratio - difference
  else
    0

/-- Structural decomposition: the multiplier returned by
`calculate_gain_reduction` is `db_to_gain_fast` of `final_db_delta` of the
dB distance above threshold. -/
theorem calculate_gain_reduction_eq_delta (gain threshold ratio knee_width : ℝ) :
    calculate_gain_reduction gain threshold ratio knee_width
      = db_to_gain_fast (final_db_delta (gain_to_db_fast gain - threshold) ratio knee_width) := by
  unfold calculate_gain_reduction final_db_delta
  dsimp only
  split_ifs <;> (congr 1; ring)

/-- C1: `calculate_gain_reduction` converts the level to decibels, computes
`reduced_db` by exactly the three knee regions on
`difference = input_db - threshold_db`, and returns the linear multiplier
`10^((reduced_db - input_db)/20)`; the source's `log₂`/`exp₂`-based fast
conversions are an equivalent of the spec's `log₁₀`/`10^·` formulas in
exact real arithmetic. -/
theorem C1_gain_reduction_matches_spec (level threshold_db ratio knee_width : ℝ) :
    calculate_gain_reduction level threshold_db ratio knee_width
      = spec_gain_reduction level threshold_db ratio knee_width := by
  unfold calculate_gain_reduction spec_gain_reduction
  dsimp only
  rw [gain_to_db_fast_eq_spec]
  split_ifs <;> rw [db_to_gain_fast_eq_spec] <;> (congr 1 <;> ring)

theorem db_to_gain_fast_zero : db_to_gain_fast 0 = 1 := by
  unfold db_to_gain_fast
  rw [zero_div, Real.rpow_zero]

theorem gain_to_db_fast_one : gain_to_db_fast 1 = 0 := by
  unfold gain_to_db_fast
  rw [max_eq_left (by norm_num [minus_infinity_gain]), Real.logb_one, zero_mul]

theorem gain_to_db_fast_zero : gain_to_db_fast 0 = -100 := by
  rw [gain_to_db_fast_eq_spec]
  unfold gain_to_db_spec
  rw [max_eq_right (by norm_num [minus_infinity_gain])]
  have h5 : minus_infinity_gain = (10 : ℝ) ^ (-5 : ℝ) := by
    rw [Real.rpow_neg (by norm_num), show (5:ℝ) = ((5:ℕ):ℝ) by norm_num,
        Real.rpow_natCast]
    norm_num [minus_infinity_gain]
  rw [h5, Real.logb_rpow (by norm_num : (0:ℝ) < 10) (by norm_num : (10:ℝ) ≠ 1)]
  norm_num

/-- In the total-division model, `ratio = 1` gives multiplier `1`: the knee
branch multiplies its quadratic by `1/ratio - 1 = 0` and the above-knee
branch returns `threshold + difference = input_db`, so `final_db = 0`.
This rides on Lean's `0/0 = 0` at the corner `knee_width = 0` with
`difference = 0`; the NaN-aware model below is authoritative there. -/
theorem unity_ratio_total_division (level threshold knee_width : ℝ) :
    calculate_gain_reduction level threshold 1 knee_width = 1 := by
  rw [calculate_gain_reduction_eq_delta]
  have h : final_db_delta (gain_to_db_fast level - threshold) 1 knee_width = 0 := by
    unfold final_db_delta
    split_ifs <;> norm_num
  rw [h, db_to_gain_fast_zero]

/-- NaN-aware model of `calculate_gain_reduction`: the same code path, with
the knee-branch division IEEE-checked.  When that branch runs with
denominator `2.0 * knee_width = 0.0`, the guard `2*|difference| ≤
knee_width` forces `difference = 0`, so the executed quotient is
`0.0/0.0` — NaN in `f32` — and NaN propagates through the remaining
arithmetic (including the multiplication by `1/ratio - 1`, since
`0.0 * NaN = NaN`) and through `exp2` to the returned multiplier; `none`
models that NaN return.  No other division by zero can occur on this path
(the branch requires `knee_width ≥ 2*|difference| ≥ 0`), and away from the
corner the result agrees with the total-division model
(`calculate_gain_reduction_checked_eq`). -/
noncomputable def calculate_gain_reduction_checked
    (gain threshold ratio knee_width : ℝ) : Option ℝ :=
  let input_db := gain_to_db_fast gain
  let difference := input_db - threshold
  if 2 * |difference| ≤ knee_width then
    if 2 * knee_width = 0 then none
    else
      let gain_reduction := (difference + knee_width / 2) ^ 2 / (2 * knee_width)
      some (db_to_gain_fast ((input_db + (1 / ratio - 1) * gain_reduction) - input_db))
  else if 2 * difference > knee_width then
    some (db_to_gain_fast ((threshold + difference / ratio) - input_db))
  else
    some (db_to_gain_fast (input_db - input_db))

/-- The checked gain computer records the NaN exactly at the 0/0 corner
(knee branch taken with zero denominator) and agrees with
`calculate_gain_reduction` everywhere else. -/
theorem calculate_gain_reduction_checked_eq (gain threshold ratio knee_width : ℝ) :
    calculate_gain_reduction_checked gain threshold ratio knee_width
      = if 2 * |gain_to_db_fast gain - threshold| ≤ knee_width ∧ 2 * knee_width = 0
        then none
        else some (calculate_gain_reduction gain threshold ratio knee_width) := by
  unfold calculate_gain_reduction_checked calculate_gain_reduction
  dsimp only
  split_ifs <;> first | rfl | tauto

/-- C6 counterexample: at the valid-range input `level = 1`, `threshold =
0`, `ratio = 1`, `knee_width = 0` (the hard-knee setting that params.rs
documents, with `difference = 0`), the knee branch divides `0.0/0.0`: the
`f32` code returns NaN, modelled as `none` — not `some 1`, so the
multiplier is not exactly `1.0` there. -/
theorem C6_counterexample :
    calculate_gain_reduction_checked 1 0 1 0 = none
      ∧ (none : Option ℝ) ≠ some 1 := by
  constructor
  · unfold calculate_gain_reduction_checked
    rw [gain_to_db_fast_one]
    norm_num
  · simp

/-- C6 (amended): with `ratio = 1` the gain computer returns exactly `1.0`
for every level and every threshold/knee width in their valid ranges,
except at the single corner `knee_width = 0` with `input_db = threshold`,
where the knee branch computes `0.0/0.0` and the `f32` code returns NaN
(the C5 bug).  Away from that corner the knee branch multiplies its
quadratic by `1/ratio - 1 = 0` and the above-knee branch returns
`threshold + difference`, so `final_db = 0` identically and the multiplier
is exactly `10^0 = 1`, NaN-free. -/
theorem C6_amended_unity_ratio (level threshold knee_width : ℝ)
    (hlevel : 0 ≤ level) (hthreshold : -100 ≤ threshold ∧ threshold ≤ 5)
    (hknee : 0 ≤ knee_width ∧ knee_width ≤ 20)
    (hcorner : ¬(knee_width = 0 ∧ gain_to_db_fast level = threshold)) :
    calculate_gain_reduction_checked level threshold 1 knee_width = some 1 := by
  rw [calculate_gain_reduction_checked_eq, if_neg, unity_ratio_total_division]
  rintro ⟨hg, hk0⟩
  have hk : knee_width = 0 := by linarith
  apply hcorner
  refine ⟨hk, ?_⟩
  have habs : |gain_to_db_fast level - threshold| = 0 := by
    have h0 : 0 ≤ |gain_to_db_fast level - threshold| := abs_nonneg _
    rw [hk] at hg
    linarith
  have hd := abs_eq_zero.mp habs
  linarith

theorem C6_amended_witness :
    calculate_gain_reduction_checked (1 / 2) (-10) 1 5 = some 1 :=
  C6_amended_unity_ratio (1 / 2) (-10) 5 (by norm_num) (by norm_num)
    (by norm_num) (by norm_num)

/-- C5: at `level = 1`, `threshold = 0`, `knee_width = 0` the code takes the
knee branch (its guard `2*|difference| ≤ knee_width` holds, since
`difference = gain_to_db_fast 1 - 0 = 0`) and evaluates the quadratic
`(difference + knee_width/2)^2 / (2*knee_width)` with numerator `0` and
denominator `2*knee_width = 0`.  In the source's `f32` arithmetic `0.0/0.0`
is `NaN`, which propagates to the returned multiplier — not the hard-knee
value `1.0` the claim requires at `difference = 0`.  (Lean's total real
division hides this by defining `0/0 = 0`.) -/
theorem C5_hard_knee_divides_zero_by_zero :
    2 * |gain_to_db_fast 1 - 0| ≤ (0 : ℝ)
      ∧ (gain_to_db_fast 1 - 0 + 0 / 2) ^ 2 = 0
      ∧ 2 * (0 : ℝ) = 0 := by
  rw [gain_to_db_fast_one]
  norm_num

theorem logb_ten_two_pos : 0 < Real.logb 10 2 :=
  Real.logb_pos (by norm_num) (by norm_num)

theorem db_to_gain_fast_lt_of_lt {a b : ℝ} (h : a < b) :
    db_to_gain_fast a < db_to_gain_fast b := by
  unfold db_to_gain_fast
  rw [Real.rpow_lt_rpow_left_iff (by norm_num : (1:ℝ) < 2)]
  exact (div_lt_div_right (mul_pos logb_ten_two_pos (by norm_num))).mpr h

theorem continuous_db_to_gain_fast : Continuous db_to_gain_fast := by
  have h : db_to_gain_fast
      = fun dbs => Real.exp (Real.log 2 * (dbs / (Real.logb 10 2 * 20))) := by
    funext dbs
    exact Real.rpow_def_of_pos (by norm_num) _
  rw [h]
  exact Real.continuous_exp.comp (continuous_const.mul (continuous_id.div_const _))

theorem continuous_gain_to_db_fast : Continuous gain_to_db_fast := by
  unfold gain_to_db_fast Real.logb
  have hmem : ∀ x : ℝ, max x minus_infinity_gain ∈ ({0}ᶜ : Set ℝ) := by
    intro x
    rw [Set.mem_compl_singleton_iff]
    have : (0:ℝ) < minus_infinity_gain := by norm_num [minus_infinity_gain]
    exact ne_of_gt (lt_of_lt_of_le this (le_max_right _ _))
  exact ((Real.continuousOn_log.comp_continuous
    (continuous_id.max continuous_const) hmem).div_const _).mul continuous_const

/-- Rewriting of `final_db_delta` (for positive knee width) into nested
`if _ ≤ _` form with the regions ordered left to right, used to prove its
continuity. -/
theorem final_db_delta_eq_piecewise (ratio knee_width : ℝ) (hk : 0 < knee_width)
    (d : ℝ) :
    final_db_delta d ratio knee_width
      = if d ≤ knee_width / 2 then
          (if -(knee_width / 2) ≤ d then
            (1 / ratio - 1) * ((d + knee_width / 2) ^ 2 / (2 * knee_width))
          else 0)
        else d / ratio - d := by
  unfold final_db_delta
  rcases abs_cases d with ⟨he, hd⟩ | ⟨he, hd⟩ <;> rw [he] <;>
    split_ifs <;> first | rfl | linarith

theorem continuous_final_db_delta (ratio knee_width : ℝ) (hk : 0 < knee_width) :
    Continuous fun d => final_db_delta d ratio knee_width := by
  have hfun : (fun d => final_db_delta d ratio knee_width) = fun d =>
      if d ≤ knee_width / 2 then
        (if -(knee_width / 2) ≤ d then
          (1 / ratio - 1) * ((d + knee_width / 2) ^ 2 / (2 * knee_width))
        else 0)
      else d / ratio - d :=
    funext (final_db_delta_eq_piecewise ratio knee_width hk)
  rw [hfun]
  apply Continuous.if_le
  · apply Continuous.if_le
    · exact continuous_const.mul
        (((continuous_id.add continuous_const).pow 2).div_const _)
    · exact continuous_const
    · exact continuous_const
    · exact continuous_id
    · intro x hx
      rw [← hx]
      have h0 : -(knee_width / 2) + knee_width / 2 = 0 := by ring
      rw [h0]
      norm_num
  · exact (continuous_id.div_const _).sub continuous_id
  · exact continuous_id
  · exact continuous_const
  · intro x hx
    rw [hx, if_pos (by linarith : -(knee_width / 2) ≤ knee_width / 2)]
    have h1 : (knee_width / 2 + knee_width / 2) ^ 2 / (2 * knee_width)
        = knee_width / 2 := by
      field_simp
      ring
    rw [h1]
    ring

/-- C7: for `knee_width > 0` and `ratio ≥ 1` the gain computer is continuous
across both knee-region boundaries: the knee branch evaluated at
`difference = knee_width/2` equals the above-knee branch value there, the
knee branch evaluated at `difference = -knee_width/2` equals the below-knee
identity (dB delta `0`), the multiplier as a function of `input_db` is
continuous at both boundary points `threshold ± knee_width/2`, and indeed
`calculate_gain_reduction` is continuous in the level throughout. -/
theorem C7_continuous_at_knee_boundaries (threshold ratio knee_width : ℝ)
    (hratio : 1 ≤ ratio) (hknee : 0 < knee_width) :
    final_db_delta (knee_width / 2) ratio knee_width
        = (knee_width / 2) / ratio - knee_width / 2
      ∧ final_db_delta (-(knee_width / 2)) ratio knee_width = 0
      ∧ ContinuousAt
          (fun input_db =>
            db_to_gain_fast (final_db_delta (input_db - threshold) ratio knee_width))
          (threshold + knee_width / 2)
      ∧ ContinuousAt
          (fun input_db =>
            db_to_gain_fast (final_db_delta (input_db - threshold) ratio knee_width))
          (threshold - knee_width / 2)
      ∧ Continuous
          (fun level => calculate_gain_reduction level threshold ratio knee_width) := by
  have hcont : Continuous fun input_db : ℝ =>
      db_to_gain_fast (final_db_delta (input_db - threshold) ratio knee_width) :=
    continuous_db_to_gain_fast.comp
      ((continuous_final_db_delta ratio knee_width hknee).comp
        (continuous_id.sub continuous_const))
  refine ⟨?_, ?_, hcont.continuousAt, hcont.continuousAt, ?_⟩
  · unfold final_db_delta
    rw [if_pos]
    · have h1 : (knee_width / 2 + knee_width / 2) ^ 2 / (2 * knee_width)
          = knee_width / 2 := by
        field_simp
        ring
      rw [h1]
      ring
    · rw [abs_of_pos (by linarith)]
      linarith
  · unfold final_db_delta
    rw [if_pos]
    · have h0 : -(knee_width / 2) + knee_width / 2 = 0 := by ring
      rw [h0]
      norm_num
    · rw [abs_neg, abs_of_pos (by linarith)]
      linarith
  · have hfun : (fun level => calculate_gain_reduction level threshold ratio knee_width)
        = fun level =>
            db_to_gain_fast
              (final_db_delta (gain_to_db_fast level - threshold) ratio knee_width) :=
      funext fun level => calculate_gain_reduction_eq_delta level threshold ratio knee_width
    rw [hfun]
    exact hcont.comp continuous_gain_to_db_fast

theorem C7_witness :
    final_db_delta (5 / 2) 4 5 = (5 / 2) / 4 - 5 / 2
      ∧ final_db_delta (-(5 / 2)) 4 5 = 0
      ∧ ContinuousAt
          (fun input_db => db_to_gain_fast (final_db_delta (input_db - (-10)) 4 5))
          ((-10) + 5 / 2)
      ∧ ContinuousAt
          (fun input_db => db_to_gain_fast (final_db_delta (input_db - (-10)) 4 5))
          ((-10) - 5 / 2)
      ∧ Continuous (fun level => calculate_gain_reduction level (-10) 4 5) :=
  C7_continuous_at_knee_boundaries (-10) 4 5 (by norm_num) (by norm_num)

/-! The plugin state and per-block processing (src/src/lib.rs lines 12–22,
55–125, 180–230; src/src/params.rs).

Key structural facts of the source, which this model transcribes:

* `Gain::default()` creates the shared cells `rms = shared(0.0)`,
  `peak = shared(0.0)`, `amplitude = shared(1.0)`, builds the compressor
  chain `(monitor(&peak, …) >> monitor(&rms, …)) * (var(&amplitude) >>
  follow(0.01))` into the local `compressor` — and then assigns
  `let graph = synth;`, the spectral resynthesizer, whose closure captures
  only the `frequencies` vector.  The `compressor` chain (the only node
  graph holding references to `rms`, `peak` and `amplitude`) is dropped at
  the end of `default()`.  Consequently the retained `graph` can neither
  write the detector cells nor read the amplitude cell; we model the graph
  as an arbitrary stateful block transformer over its own state type `σ`,
  disjoint from the three shared cells.

* `process()` iterates `buffer.iter_blocks(MAX_BUFFER_SIZE)` (fundsp's
  `MAX_BUFFER_SIZE = 64`), and per sub-block: copies the samples of
  channels 0 and 1 into `input_buffer` (via
  `channel_samples.get_mut(channel_index).unwrap()` — a panic when the
  buffer has fewer than 2 channels), reads the level from `rms` or `peak`
  according to `meter_type`, reads `threshold`, `ratio` and `knee_width`
  once, stores `calculate_gain_reduction(…)` into `amplitude`, runs
  `graph.process`, and copies the graph's output back into the buffer
  (again `get_mut(n).unwrap()` for n = 0, 1).  It never reads
  `attack_time`, `release_time`, `input_gain`, `output_gain` or `dry_wet`,
  and never writes `rms` or `peak`.

Modelling conventions: a buffer is a list of frames, each frame a list of
per-channel `f32` samples; `Option` models panics (`none` = a `unwrap()`
panic, `some` = the `ProcessStatus::Normal` return); parameter cells may be
changed concurrently by the host's automation, so a run takes the
parameter snapshot as a function of the sample offset at which the code
reads it.  `input_buffer`/`output_buffer` are 64-slot scratch arrays whose
slots beyond the current sub-block length are stale and never read; we
model only the live slots, padding with 0. -/

/-- The `LevelDetection` enum (src/src/lib.rs lines 24–28). -/
inductive LevelDetection where
  | Rms
  | Peak
deriving DecidableEq

/-- The parameter set (src/src/params.rs lines 18–54): current values of
each parameter, gains stored linearly as in the source. -/
structure GainParams where
  meter_type : LevelDetection
  threshold : ℝ
  ratio : ℝ
  attack_time : ℝ
  release_time : ℝ
  knee_width : ℝ
  input_gain : ℝ
  output_gain : ℝ
  dry_wet : ℝ

/-- Default parameter values from `GainParams::new()` (src/src/params.rs):
Rms detection, threshold −10 dB, ratio 4, attack 1 ms, release 50 ms, knee
5 dB, unity input/output gain (`db_to_gain(0.0) = 1.0`), dry/wet 1.0. -/
noncomputable def defaultParams : GainParams :=
  { meter_type := LevelDetection.Rms
    threshold := -10
    ratio := 4
    attack_time := 0.001
    release_time := 0.05
    knee_width := 5
    input_gain := 1
    output_gain := 1
    dry_wet := 1 }

/-- The mutable plugin state (src/src/lib.rs lines 12–22): the three shared
cells plus the state of the boxed audio graph, an arbitrary type `σ`. -/
structure GainState (σ : Type) where
  rms : ℝ
  peak : ℝ
  amplitude : ℝ
  graph : σ

/-- A block-processing audio graph (`Box<dyn AudioUnit>`): from its own
state, a sample count and a stereo input buffer, produce its next state
and a stereo output buffer.  The retained graph (the resynth) holds no
reference to the shared cells, so its state is just `σ`. -/
def GraphFn (σ : Type) : Type :=
  σ → ℕ → (ℕ → ℝ × ℝ) → σ × (ℕ → ℝ × ℝ)

/-- State after `Gain::default()`: `rms = shared(0.0)`,
`peak = shared(0.0)`, `amplitude = shared(1.0)`, graph state `g0` (the
freshly built resynth). -/
def defaultState {σ : Type} (g0 : σ) : GainState σ :=
  { rms := 0, peak := 0, amplitude := 1, graph := g0 }

/-- The level fed to the gain computer (src/src/lib.rs lines 202–205):
`match meter_type { Rms => rms.value(), Peak => peak.value() }`. -/
def levelUsed {σ : Type} (p : GainParams) (s : GainState σ) : ℝ :=
  match p.meter_type with
  | LevelDetection.Rms => s.rms
  | LevelDetection.Peak => s.peak

/-- The input-copy loop (src/src/lib.rs lines 193–200): for each sample,
read channels 0 and 1 (`channel_samples.get_mut(channel_index).unwrap()`;
`none` models the panic on a buffer with fewer than two channels) into the
input buffer. -/
noncomputable def readFrames : List (List ℝ) → Option (List (ℝ × ℝ))
  | [] => some []
  | f :: rest => do
      let a ← f[0]?
      let b ← f[1]?
      let tail ← readFrames rest
      pure ((a, b) :: tail)

/-- The output-copy loop (src/src/lib.rs lines 221–226): for each sample
index `i`, overwrite channels 0 and 1 of the frame with the graph's output
buffer values (`channel_samples.get_mut(n).unwrap()`, again a potential
panic). -/
noncomputable def writeFrames (outBuf : ℕ → ℝ × ℝ) : ℕ → List (List ℝ) → Option (List (List ℝ))
  | _, [] => some []
  | i, f :: rest => do
      let _ ← f[0]?
      let _ ← f[1]?
      let tail ← writeFrames outBuf (i + 1) rest
      pure (((f.set 0 (outBuf i).1).set 1 (outBuf i).2) :: tail)

/-- One iteration of the `iter_blocks` loop body (src/src/lib.rs lines
191–227) on a sub-block `chunk` of at most 64 frames: copy the input in,
read the level and the threshold/ratio/knee parameters once, store the
computed gain reduction into `amplitude`, run the graph, copy its output
out. -/
noncomputable def processSubBlock {σ : Type} (G : GraphFn σ) (p : GainParams)
    (s : GainState σ) (chunk : List (List ℝ)) :
    Option (GainState σ × List (List ℝ)) := do
  let frames ← readFrames chunk
  let inputBuf : ℕ → ℝ × ℝ := fun i => frames.getD i (0, 0)
  let amp := calculate_gain_reduction (levelUsed p s) p.threshold p.ratio p.knee_width
  let gOut := G s.graph chunk.length inputBuf
  let outChunk ← writeFrames gOut.2 0 chunk
  pure ({ rms := s.rms, peak := s.peak, amplitude := amp, graph := gOut.1 }, outChunk)

/-- `buffer.iter_blocks(MAX_BUFFER_SIZE)`: split the buffer into successive
sub-blocks of 64 frames (the last one shorter). -/
noncomputable def chunkInput : List (List ℝ) → List (List (List ℝ))
  | [] => []
  | f :: rest => (f :: rest.take 63) :: chunkInput (rest.drop 63)
termination_by l => l.length
decreasing_by simp [List.length_drop]; omega

/-- The `iter_blocks` loop: process the sub-blocks in order, threading the
state; `params` gives the parameter snapshot as read at sample offset
`idx` (host automation may change the cells between sub-blocks). -/
noncomputable def processChunks {σ : Type} (G : GraphFn σ) (params : ℕ → GainParams) :
    ℕ → GainState σ → List (List (List ℝ)) → Option (GainState σ × List (List ℝ))
  | _, s, [] => some (s, [])
  | idx, s, c :: cs =>
      (processSubBlock G (params idx) s c).bind fun r =>
        (processChunks G params (idx + c.length) r.1 cs).bind fun r2 =>
          some (r2.1, r.2 ++ r2.2)

/-- `Gain::process` (src/src/lib.rs lines 180–230): run the block loop over
the whole buffer; `some (s', output)` models mutating the buffer to
`output` and returning `ProcessStatus::Normal`, `none` models a panic. -/
noncomputable def Gain.process {σ : Type} (G : GraphFn σ) (params : ℕ → GainParams)
    (s : GainState σ) (input : List (List ℝ)) :
    Option (GainState σ × List (List ℝ)) :=
  processChunks G params 0 s (chunkInput input)

/-- A trivial concrete graph (state `Unit`, output all zero), used to
instantiate the universally quantified graph in witnesses. -/
def GZero : GraphFn Unit := fun g _ _ => (g, fun _ => (0, 0))

/-- Default parameters with `Peak` level detection selected. -/
noncomputable def peakParams : GainParams :=
  { defaultParams with meter_type := LevelDetection.Peak }

/-- Inversion for `Option` bind, used to destructure successful runs. -/
theorem option_bind_eq_some {α β : Type} {x : Option α} {f : α → Option β} {b : β}
    (h : x.bind f = some b) : ∃ a, x = some a ∧ f a = some b := by
  cases x with
  | none => simp at h
  | some a => exact ⟨a, rfl, h⟩

/-- A successful sub-block leaves `rms` and `peak` untouched (nothing in
`process` writes them; the monitor nodes that would do so live in the
dropped `compressor` chain) and stores the freshly computed gain reduction
into `amplitude`. -/
theorem processSubBlock_state {σ : Type} (G : GraphFn σ) (p : GainParams)
    (s : GainState σ) (chunk : List (List ℝ)) (s' : GainState σ)
    (out : List (List ℝ)) (h : processSubBlock G p s chunk = some (s', out)) :
    s'.rms = s.rms ∧ s'.peak = s.peak
      ∧ s'.amplitude
          = calculate_gain_reduction (levelUsed p s) p.threshold p.ratio p.knee_width := by
  unfold processSubBlock at h
  obtain ⟨frames, hr, h⟩ := option_bind_eq_some h
  dsimp only at h
  obtain ⟨outChunk, hw, h⟩ := option_bind_eq_some h
  simp only [Option.pure_def, Option.some_inj] at h
  obtain ⟨hs, -⟩ := Prod.mk.inj h
  subst hs
  exact ⟨rfl, rfl, rfl⟩

/-- `processSubBlock` reads only the `meter_type`, `threshold`, `ratio` and
`knee_width` fields of the parameter snapshot. -/
theorem processSubBlock_congr {σ : Type} (G : GraphFn σ) {p q : GainParams}
    (hm : p.meter_type = q.meter_type) (ht : p.threshold = q.threshold)
    (hr : p.ratio = q.ratio) (hk : p.knee_width = q.knee_width)
    (s : GainState σ) (chunk : List (List ℝ)) :
    processSubBlock G p s chunk = processSubBlock G q s chunk := by
  unfold processSubBlock levelUsed
  rw [hm, ht, hr, hk]

/-- The block loop reads the parameter snapshots only through the four
fields of `processSubBlock_congr`. -/
theorem processChunks_congr {σ : Type} (G : GraphFn σ) {p q : ℕ → GainParams}
    (h : ∀ i, (p i).meter_type = (q i).meter_type
      ∧ (p i).threshold = (q i).threshold
      ∧ (p i).ratio = (q i).ratio
      ∧ (p i).knee_width = (q i).knee_width) :
    ∀ (cs : List (List (List ℝ))) (idx : ℕ) (s : GainState σ),
      processChunks G p idx s cs = processChunks G q idx s cs := by
  intro cs
  induction cs with
  | nil => intro idx s; rfl
  | cons c cs ih =>
      intro idx s
      unfold processChunks
      refine Option.bind_congr'
        (processSubBlock_congr G (h idx).1 (h idx).2.1 (h idx).2.2.1 (h idx).2.2.2 s c) ?_
      intro r hr
      rw [ih]

/-- The detector cells survive any number of successful sub-blocks
unchanged. -/
theorem processChunks_detector {σ : Type} (G : GraphFn σ) (p : ℕ → GainParams) :
    ∀ (cs : List (List (List ℝ))) (idx : ℕ) (s s' : GainState σ)
      (out : List (List ℝ)),
      processChunks G p idx s cs = some (s', out)
        → s'.rms = s.rms ∧ s'.peak = s.peak := by
  intro cs
  induction cs with
  | nil =>
      intro idx s s' out h
      unfold processChunks at h
      obtain ⟨hs, -⟩ := Prod.mk.inj (Option.some.inj h)
      subst hs
      exact ⟨rfl, rfl⟩
  | cons c cs ih =>
      intro idx s s' out h
      unfold processChunks at h
      obtain ⟨r, h1, h⟩ := option_bind_eq_some h
      obtain ⟨r2, h2, h⟩ := option_bind_eq_some h
      obtain ⟨hs, -⟩ := Prod.mk.inj (Option.some.inj h)
      subst hs
      have ha := processSubBlock_state G (p idx) s c r.1 r.2 h1
      have hb := ih (idx + c.length) r.1 r2.1 r2.2 h2
      exact ⟨hb.1.trans ha.1, hb.2.trans ha.2.1⟩

/-- C2: the level fed into the gain computation is identically zero, not a
peak/RMS follower of the signal.  The shared cells `rms` and `peak` are
written only by the `monitor` nodes of the `compressor` chain which
`Gain::default()` builds and drops (the retained graph is the spectral
resynth), so from the freshly constructed state every successful `process`
run — for any graph behaviour, any parameter snapshots (in particular Peak
mode) and any input, including a unit impulse — reads level `0` at the
first sub-block and still has `rms = peak = 0` afterwards, instead of the
claim's "immediate level equal to the impulse magnitude followed by
exponential decay". -/
theorem C2_detector_level_stuck_at_zero {σ : Type} (G : GraphFn σ) (g0 : σ)
    (params : ℕ → GainParams) (input : List (List ℝ)) (s' : GainState σ)
    (out : List (List ℝ))
    (h : Gain.process G params (defaultState g0) input = some (s', out)) :
    levelUsed (params 0) (defaultState g0) = 0 ∧ s'.rms = 0 ∧ s'.peak = 0 := by
  have hd := processChunks_detector G params (chunkInput input) 0
    (defaultState g0) s' out h
  refine ⟨?_, hd.1, hd.2⟩
  unfold levelUsed defaultState
  cases (params 0).meter_type <;> rfl

/-- C3: there is no attack/release envelope smoothing in the processing
path.  The sub-block computation overwrites `amplitude` with the raw gain
reduction — its result does not depend on the previous smoothed value
(`a1`, `a2` arbitrary), nor on the `attack_time`/`release_time` parameters
(`t1`/`u1` vs `t2`/`u2` arbitrary): the only follower in the source,
`follow(0.01)` (symmetric, fixed 10 ms), sits in the `compressor` chain
that `Gain::default()` drops, and the attack/release parameters are never
read in `process`, so no attack-coefficient/release-coefficient asymmetry
exists anywhere in the executed code. -/
theorem C3_no_attack_release_smoothing {σ : Type} (G : GraphFn σ)
    (p : GainParams) (t1 u1 t2 u2 a1 a2 : ℝ) (s : GainState σ)
    (chunk : List (List ℝ)) :
    processSubBlock G { p with attack_time := t1, release_time := u1 }
        { s with amplitude := a1 } chunk
      = processSubBlock G { p with attack_time := t2, release_time := u2 }
          { s with amplitude := a2 } chunk := rfl

/-- C4: the dry/wet blend (and the input/output trim) is never applied.
`process` never reads `dry_wet`, `input_gain` or `output_gain`, so for
every graph behaviour the written output is identical across all their
values.  In particular with `dry_wet = 0` the claim requires the output to
be the input-gain-scaled dry signal: for a unit-impulse input that output
would have to equal `input_gain`, which differs between `input_gain = 1`
and `input_gain = 2`, yet the two runs coincide — so the claimed equality
cannot hold. -/
theorem C4_mix_and_trim_never_applied {σ : Type} (G : GraphFn σ)
    (p : GainParams) (s : GainState σ) (input : List (List ℝ))
    (ig1 og1 dw1 ig2 og2 dw2 : ℝ) :
    Gain.process G
        (fun _ => { p with input_gain := ig1, output_gain := og1, dry_wet := dw1 })
        s input
      = Gain.process G
          (fun _ => { p with input_gain := ig2, output_gain := og2, dry_wet := dw2 })
          s input := by
  unfold Gain.process
  apply processChunks_congr
  intro i
  exact ⟨rfl, rfl, rfl, rfl⟩

/-- C10: the output and final state of `process` are independent of
`attack_time`, `release_time`, `input_gain`, `output_gain` and `dry_wet`:
two runs from the same state on the same input whose parameter snapshots
agree on the remaining fields (`meter_type`, `threshold`, `ratio`,
`knee_width`) are identical, because those are the only fields `process`
reads. -/
theorem C10_output_independent_of_unread_params {σ : Type} (G : GraphFn σ)
    (p q : ℕ → GainParams)
    (h : ∀ i, (p i).meter_type = (q i).meter_type
      ∧ (p i).threshold = (q i).threshold
      ∧ (p i).ratio = (q i).ratio
      ∧ (p i).knee_width = (q i).knee_width)
    (s : GainState σ) (input : List (List ℝ)) :
    Gain.process G p s input = Gain.process G q s input := by
  unfold Gain.process
  apply processChunks_congr
  exact h

theorem C10_witness :
    Gain.process GZero (fun _ => defaultParams) (defaultState ()) [[1, 1]]
      = Gain.process GZero
          (fun _ =>
            { defaultParams with
                attack_time := 1
                release_time := 2
                input_gain := 3
                output_gain := 4
                dry_wet := 0 })
          (defaultState ()) [[1, 1]] :=
  C10_output_independent_of_unread_params GZero (fun _ => defaultParams)
    (fun _ =>
      { defaultParams with
          attack_time := 1
          release_time := 2
          input_gain := 3
          output_gain := 4
          dry_wet := 0 })
    (fun _ => ⟨rfl, rfl, rfl, rfl⟩) (defaultState ()) [[1, 1]]

/-- Evaluation of a stereo unit-impulse run from the fresh state in Peak
mode (graph instantiated with `GZero`): the level read is `peak = 0`, the
stored gain reduction is computed from level `0`, and the detector cells
remain `0`. -/
theorem process_impulse_eval :
    Gain.process GZero (fun _ => peakParams) (defaultState ()) [[1, 1]]
      = some ({ rms := 0, peak := 0,
                amplitude := calculate_gain_reduction 0 (-10) 4 5, graph := () },
              [[0, 0]]) := by
  simp [Gain.process, chunkInput, processChunks, processSubBlock, readFrames,
        writeFrames, GZero, levelUsed, peakParams, defaultParams, defaultState,
        List.set]

theorem C2_witness :
    levelUsed ((fun _ : ℕ => peakParams) 0) (defaultState ()) = 0
      ∧ ({ rms := 0, peak := 0,
           amplitude := calculate_gain_reduction 0 (-10) 4 5,
           graph := () } : GainState Unit).rms = 0
      ∧ ({ rms := 0, peak := 0,
           amplitude := calculate_gain_reduction 0 (-10) 4 5,
           graph := () } : GainState Unit).peak = 0 :=
  C2_detector_level_stuck_at_zero GZero () (fun _ => peakParams) [[1, 1]] _ _
    process_impulse_eval

/-- C9: the source declares a mono (1-in/1-out) layout in
`AUDIO_IO_LAYOUTS`, but `process` unconditionally accesses channel index 1
(`channel_samples.get_mut(channel_index).unwrap()` for `channel_index` in
`0..=1`), which is `None` on a 1-channel buffer: processing any non-empty
mono block panics (`none`) instead of completing with
`ProcessStatus::Normal`.  On the stereo layout the same run completes
normally (`isSome`). -/
theorem C9_mono_layout_panics :
    Gain.process GZero (fun _ => defaultParams) (defaultState ()) [[1]] = none
      ∧ (Gain.process GZero (fun _ => defaultParams) (defaultState ()) [[1, 1]]).isSome
          = true := by
  constructor
  · simp [Gain.process, chunkInput, processChunks, processSubBlock, readFrames]
  · simp [Gain.process, chunkInput, processChunks, processSubBlock, readFrames,
          writeFrames, GZero, levelUsed, defaultParams, defaultState, List.set]

/-- A host-automation trace that changes the threshold from the default
−10 dB to −100 dB at sample offset 1 — i.e. between the two samples of a
two-sample block, inside a single 64-sample sub-block. -/
noncomputable def pC8 : ℕ → GainParams :=
  fun i => if i = 0 then defaultParams else { defaultParams with threshold := -100 }

theorem final_db_delta_zero_4_5 : final_db_delta 0 4 5 = -(15 / 32) := by
  unfold final_db_delta
  rw [if_pos (by norm_num : 2 * |(0:ℝ)| ≤ 5)]
  norm_num

theorem final_db_delta_neg90_4_5 : final_db_delta (-90) 4 5 = 0 := by
  unfold final_db_delta
  rw [if_neg (by rw [abs_neg, abs_of_pos (by norm_num : (0:ℝ) < 90)]; norm_num),
      if_neg (by norm_num : ¬2 * (-90:ℝ) > 5)]

/-- At the stuck detector level `0` (≡ −100 dB), a threshold of −100 dB
compresses (`difference = 0`, inside the 5 dB knee) while the default
−10 dB threshold does not (`difference = −90`, far below the knee): the two
snapshots of `pC8` yield different multipliers. -/
theorem gain_reduction_differs_at_pC8_snapshots :
    calculate_gain_reduction 0 (-100) 4 5 ≠ calculate_gain_reduction 0 (-10) 4 5 := by
  rw [calculate_gain_reduction_eq_delta, calculate_gain_reduction_eq_delta,
      gain_to_db_fast_zero]
  rw [show (-100 : ℝ) - -100 = 0 by norm_num, show (-100 : ℝ) - -10 = -90 by norm_num]
  rw [final_db_delta_zero_4_5, final_db_delta_neg90_4_5]
  have hlt : db_to_gain_fast (-(15 / 32)) < db_to_gain_fast 0 :=
    db_to_gain_fast_lt_of_lt (by norm_num)
  exact ne_of_lt hlt

/-- C8 counterexample: with the threshold changing at sample offset 1
(inside the first sub-block), the run is bit-identical to the run with the
parameters frozen at their sample-0 values — the change does not take
effect at the sample where it occurs — even though re-reading the
parameters at sample 1 would have produced a different gain-reduction
multiplier (`gain_reduction_differs_at_pC8_snapshots`). -/
theorem C8_counterexample :
    Gain.process GZero pC8 (defaultState ()) [[1, 1], [1, 1]]
        = Gain.process GZero (fun _ => defaultParams) (defaultState ()) [[1, 1], [1, 1]]
      ∧ calculate_gain_reduction 0 (pC8 1).threshold (pC8 1).ratio (pC8 1).knee_width
          ≠ calculate_gain_reduction 0 (pC8 0).threshold (pC8 0).ratio (pC8 0).knee_width := by
  constructor
  · simp [Gain.process, chunkInput, processChunks, processSubBlock, readFrames,
          writeFrames, GZero, levelUsed, pC8, defaultParams, defaultState, List.set]
  · simp only [pC8, if_pos, if_neg, one_ne_zero, reduceIte]
    simp [defaultParams]
    exact gain_reduction_differs_at_pC8_snapshots

/-- C8 (amended): within `process`, `threshold`, `ratio` and `knee_width`
are re-read and the gain reduction recomputed once per sub-block of
`MAX_BUFFER_SIZE = 64` samples (at the sub-block's first sample), not at
each sample: for a block that fits in one sub-block, the run depends on
the parameters only through their sample-0 snapshot, and the stored
multiplier is computed from that snapshot; a change inside a sub-block
takes effect only from the next sub-block boundary. -/
theorem C8_amended_params_read_once_per_sub_block {σ : Type} (G : GraphFn σ)
    (p q : ℕ → GainParams) (s : GainState σ) (input : List (List ℝ))
    (s' : GainState σ) (out : List (List ℝ))
    (hne : input ≠ []) (hlen : input.length ≤ 64) (hp0 : p 0 = q 0)
    (h : Gain.process G p s input = some (s', out)) :
    Gain.process G p s input = Gain.process G q s input
      ∧ s'.amplitude = calculate_gain_reduction (levelUsed (p 0) s)
          (p 0).threshold (p 0).ratio (p 0).knee_width := by
  have hchunk : chunkInput input = [input] := by
    cases input with
    | nil => exact absurd rfl hne
    | cons f rest =>
        have h1 : rest.take 63 = rest := by
          apply List.take_of_length_le
          simp at hlen
          omega
        have h2 : rest.drop 63 = [] := by
          apply List.drop_eq_nil_of_le
          simp at hlen
          omega
        unfold chunkInput
        rw [h1, h2]
        unfold chunkInput
        rfl
  constructor
  · unfold Gain.process
    rw [hchunk]
    simp only [processChunks]
    rw [hp0]
  · unfold Gain.process at h
    rw [hchunk] at h
    unfold processChunks at h
    obtain ⟨r, h1, h⟩ := option_bind_eq_some h
    obtain ⟨hs, -⟩ := Prod.mk.inj (Option.some.inj h)
    subst hs
    exact (processSubBlock_state G (p 0) s input r.1 r.2 h1).2.2

/-- Evaluation of the two-sample run under the `pC8` automation trace: the
whole block is one sub-block, so only the sample-0 snapshot (threshold
−10 dB) is used. -/
theorem process_two_frames_eval :
    Gain.process GZero pC8 (defaultState ()) [[1, 1], [1, 1]]
      = some ({ rms := 0, peak := 0,
                amplitude := calculate_gain_reduction 0 (-10) 4 5, graph := () },
              [[0, 0], [0, 0]]) := by
  simp [Gain.process, chunkInput, processChunks, processSubBlock, readFrames,
        writeFrames, GZero, levelUsed, pC8, defaultParams, defaultState, List.set]

theorem C8_witness :
    Gain.process GZero pC8 (defaultState ()) [[1, 1], [1, 1]]
        = Gain.process GZero (fun _ => defaultParams) (defaultState ()) [[1, 1], [1, 1]]
      ∧ ({ rms := 0, peak := 0,
           amplitude := calculate_gain_reduction 0 (-10) 4 5,
           graph := () } : GainState Unit).amplitude
          = calculate_gain_reduction (levelUsed (pC8 0) (defaultState ()))
              (pC8 0).threshold (pC8 0).ratio (pC8 0).knee_width :=
  C8_amended_params_read_once_per_sub_block GZero pC8 (fun _ => defaultParams)
    (defaultState ()) [[1, 1], [1, 1]] _ _ (by simp) (by simp) (by simp [pC8])
    process_two_frames_eval
